import Mathlib

/-!
Verification of the musical-chairs game (`src/main.cpp`).

The C++ program keeps a `JogoDasCadeiras` object with three fields:
`num_jogadores_` (an `int`), `cadeiras_` (a `std::vector<Cadeira>`, where a
`Cadeira` is a single `int id_jogador_`, `0` meaning unoccupied), and
`jogadores_eliminados_` (a `std::vector<int>`, append-only log).
We embed the object as a Lean structure with `Int` ids (C++ `int`) and lists
for the vectors, and each member function as a pure state transformer.
-/

namespace MusicalChairs

/-- `constexpr int NUM_JOGADORES = 4;` (main.cpp line 12). -/
def NUM_JOGADORES : Int := 4

/-- The `JogoDasCadeiras` object (main.cpp lines 52-82).  A seat
(`Cadeira`) is its occupant id, `0` meaning unoccupied (lines 42-50). -/
structure JogoDasCadeiras where
  num_jogadores : Int
  cadeiras : List Int
  jogadores_eliminados : List Int
deriving Repr, DecidableEq

/-- Constructor `JogoDasCadeiras(int num_jogadores)` (lines 84-89): stores the
count and builds `num_jogadores - 1` unoccupied seats (the loop body runs
`max (n-1) 0` times, which is `(n-1).toNat`). -/
def mkJogo (n : Int) : JogoDasCadeiras :=
  { num_jogadores := n
  , cadeiras := List.replicate (n - 1).toNat 0
  , jogadores_eliminados := [] }

/-- The seat-scan loop of `pegar_cadeira` (lines 144-150): walk the seats in
order, set the first one whose occupant is `0` to `id` and stop; return
whether a seat was taken together with the updated seat list. -/
def pegarAux (id : Int) : List Int → Bool × List Int
  | [] => (false, [])
  | c :: cs =>
      if c = 0 then (true, id :: cs)
      else
        let r := pegarAux id cs
        (r.1, c :: r.2)

/-- `bool JogoDasCadeiras::pegar_cadeira(int id_jogador)` (lines 142-153). -/
def pegar_cadeira (j : JogoDasCadeiras) (id : Int) : Bool × JogoDasCadeiras :=
  let r := pegarAux id j.cadeiras
  (r.1, { j with cadeiras := r.2 })

/-- `void JogoDasCadeiras::remover_cadeira()` (lines 156-158): `pop_back()`
on the seat vector.  (`pop_back` on an empty vector is UB in C++; the game
only calls it with at least one seat, and `List.dropLast` is total.) -/
def remover_cadeira (j : JogoDasCadeiras) : JogoDasCadeiras :=
  { j with cadeiras := j.cadeiras.dropLast }

/-- `void JogoDasCadeiras::esvaziar_cadeiras()` (lines 161-165): set every
seat's occupant id to `0`. -/
def esvaziar_cadeiras (j : JogoDasCadeiras) : JogoDasCadeiras :=
  { j with cadeiras := j.cadeiras.map (fun _ => 0) }

/-- `void JogoDasCadeiras::eliminar_jogador()` (lines 128-130):
`--num_jogadores_`. -/
def eliminar_jogador (j : JogoDasCadeiras) : JogoDasCadeiras :=
  { j with num_jogadores := j.num_jogadores - 1 }

/-- `void JogoDasCadeiras::add_jogador_eliminado(int id)` (lines 167-169):
append to the elimination log. -/
def add_jogador_eliminado (j : JogoDasCadeiras) (id : Int) : JogoDasCadeiras :=
  { j with jogadores_eliminados := j.jogadores_eliminados ++ [id] }

/-- `int JogoDasCadeiras::get_id_vencedor()` (line 74): reads
`cadeiras_[0]`.  `operator[]` on an empty vector is UB, so the embedding
returns an `Option`: `none` exactly on the empty seat list. -/
def get_id_vencedor (j : JogoDasCadeiras) : Option Int :=
  j.cadeiras.head?

/-- The data read by `void JogoDasCadeiras::exibir_estado()` (lines 132-139):
the seat occupancy list and `jogadores_eliminados_.back()`.  `back()` on an
empty vector is UB, so the embedding returns an `Option` that is `none`
exactly when the elimination log is empty. -/
def exibir_estado (j : JogoDasCadeiras) : Option (List Int × Int) :=
  match j.jogadores_eliminados.getLast? with
  | none => none
  | some x => some (j.cadeiras, x)

/-- `void JogoDasCadeiras::iniciar_rodada()` (lines 91-107) restricted to the
game-state mutations: when `num_jogadores_ < NUM_JOGADORES` it clears the
seats and removes one; otherwise (first round) it only prints.  The
`cadeira_sem.release(num_jogadores_-1)` on line 96 acts on the global
semaphore and is modelled separately (`SemOp` below). -/
def iniciar_rodada (j : JogoDasCadeiras) : JogoDasCadeiras :=
  if j.num_jogadores < NUM_JOGADORES then
    remover_cadeira (esvaziar_cadeiras j)
  else j

/-! ### Basic lemmas about the seat scan -/

/-- The scan succeeds exactly when some seat is unoccupied. -/
theorem pegarAux_fst_iff (id : Int) (l : List Int) :
    (pegarAux id l).1 = true ↔ 0 ∈ l := by
  induction l with
  | nil => simp [pegarAux]
  | cons c cs ih =>
      by_cases hc : c = 0
      · simp [pegarAux, hc]
      · simp [pegarAux, hc, ih, Ne.symm hc]

/-- On failure the scan leaves the seat list unchanged. -/
theorem pegarAux_snd_of_fail (id : Int) (l : List Int)
    (h : (pegarAux id l).1 = false) : (pegarAux id l).2 = l := by
  induction l with
  | nil => simp [pegarAux]
  | cons c cs ih =>
      by_cases hc : c = 0
      · simp [pegarAux, hc] at h
      · simp only [pegarAux, hc, if_false] at h ⊢
        simp [ih h]

/-- On success the scan replaces the first unoccupied seat, and only it. -/
theorem pegarAux_snd_of_succ (id : Int) (l : List Int)
    (h : (pegarAux id l).1 = true) :
    ∃ pre post, l = pre ++ 0 :: post ∧ 0 ∉ pre ∧
      (pegarAux id l).2 = pre ++ id :: post := by
  induction l with
  | nil => simp [pegarAux] at h
  | cons c cs ih =>
      by_cases hc : c = 0
      · refine ⟨[], cs, by simp [hc], by simp, ?_⟩
        simp [pegarAux, hc]
      · simp only [pegarAux, hc, if_false] at h
        obtain ⟨pre, post, hl, hpre, hres⟩ := ih h
        refine ⟨c :: pre, post, by simp [hl], ?_, ?_⟩
        · simp [hpre, Ne.symm hc]
        · simp [pegarAux, hc, hres]

/-- The scan never changes the number of seats. -/
theorem pegarAux_length (id : Int) (l : List Int) :
    (pegarAux id l).2.length = l.length := by
  induction l with
  | nil => simp [pegarAux]
  | cons c cs ih =>
      by_cases hc : c = 0
      · simp [pegarAux, hc]
      · simp [pegarAux, hc, ih]

/-- C1.  `pegar_cadeira` returns `true` iff some seat is unoccupied before
the call; on success it marks exactly the first unoccupied seat (in scan
order) with the caller's id, leaving every other seat, the player count and
the elimination log unchanged; on failure it returns `false` and leaves the
whole state unchanged. -/
theorem pegar_cadeira_correct (j : JogoDasCadeiras) (id : Int) :
    ((pegar_cadeira j id).1 = true ↔ 0 ∈ j.cadeiras) ∧
    ((pegar_cadeira j id).1 = false → (pegar_cadeira j id).2 = j) ∧
    ((pegar_cadeira j id).1 = true →
      ∃ pre post, j.cadeiras = pre ++ 0 :: post ∧ 0 ∉ pre ∧
        (pegar_cadeira j id).2.cadeiras = pre ++ id :: post) ∧
    (pegar_cadeira j id).2.num_jogadores = j.num_jogadores ∧
    (pegar_cadeira j id).2.jogadores_eliminados = j.jogadores_eliminados := by
  refine ⟨pegarAux_fst_iff id j.cadeiras, ?_, ?_, rfl, rfl⟩
  · intro h
    have := pegarAux_snd_of_fail id j.cadeiras h
    cases j
    simp [pegar_cadeira] at this ⊢
    exact this
  · intro h
    exact pegarAux_snd_of_succ id j.cadeiras h

/-- Witness for `pegar_cadeira_correct` at a concrete state: the seat list
`[5, 0, 0]` has an unoccupied seat, so player `2`'s claim succeeds. -/
theorem pegar_cadeira_correct_witness :
    (0 : Int) ∈ [(5 : Int), 0, 0] ∧
      (pegar_cadeira ⟨4, [5, 0, 0], []⟩ 2).1 = true :=
  ⟨by decide,
   (pegar_cadeira_correct ⟨4, [5, 0, 0], []⟩ 2).1.mpr (by decide)⟩

/-- C9.  `esvaziar_cadeiras` empties every seat, keeps the seat count, the
player count and the elimination log, and is idempotent. -/
theorem esvaziar_cadeiras_correct (j : JogoDasCadeiras) :
    (∀ c ∈ (esvaziar_cadeiras j).cadeiras, c = 0) ∧
    (esvaziar_cadeiras j).cadeiras.length = j.cadeiras.length ∧
    (esvaziar_cadeiras j).num_jogadores = j.num_jogadores ∧
    (esvaziar_cadeiras j).jogadores_eliminados = j.jogadores_eliminados ∧
    esvaziar_cadeiras (esvaziar_cadeiras j) = esvaziar_cadeiras j := by
  refine ⟨by simp [esvaziar_cadeiras], by simp [esvaziar_cadeiras], rfl, rfl, ?_⟩
  cases j
  simp [esvaziar_cadeiras]

/-- C10.  The `exibir_estado` read-out is `none` exactly when the
elimination log is empty; when at least one elimination has been recorded it
returns the seat occupancy together with the last eliminated id. -/
theorem exibir_estado_defined (j : JogoDasCadeiras) :
    (exibir_estado j = none ↔ j.jogadores_eliminados = []) ∧
    (j.jogadores_eliminados ≠ [] →
      ∃ x, j.jogadores_eliminados.getLast? = some x ∧
        exibir_estado j = some (j.cadeiras, x)) := by
  constructor
  · unfold exibir_estado
    rcases h : j.jogadores_eliminados.getLast? with _ | x
    · simp [List.getLast?_eq_none_iff] at h ⊢
      exact h
    · simp
      intro hnil
      rw [hnil] at h
      simp at h
  · intro hne
    rcases h : j.jogadores_eliminados.getLast? with _ | x
    · rw [List.getLast?_eq_none_iff] at h
      exact absurd h hne
    · exact ⟨x, rfl, by simp [exibir_estado, h]⟩

/-- Witness for `exibir_estado_defined`: with elimination log `[4]` the
read-out is defined and reports `4` as the last eliminated player. -/
theorem exibir_estado_defined_witness :
    ([(4 : Int)] ≠ ([] : List Int)) ∧
      ∃ x, ([(4 : Int)]).getLast? = some x ∧
        exibir_estado ⟨3, [0, 0], [4]⟩ = some ([0, 0], x) :=
  ⟨by decide, (exibir_estado_defined ⟨3, [0, 0], [4]⟩).2 (by decide)⟩

/-! ### C2: the occupancy invariant along operation sequences

The seat-list mutations reachable between rounds are `pegar_cadeira`
(players claiming), `esvaziar_cadeiras` and `remover_cadeira` (the
coordinator's `iniciar_rodada`).  Each seat holds a single occupant id by
construction (a `Cadeira` is one `int`), occupied counts are `Nat`s (never
negative), and we show the nonzero occupant ids stay pairwise distinct and
the occupied count stays at most the seat count. -/

/-- A seat-list mutation of `JogoDasCadeiras`. -/
inductive Op where
  | pegar (id : Int)
  | esvaziar
  | remover
deriving Repr, DecidableEq

/-- Apply one mutation (main.cpp lines 142-165). -/
def applyOp (j : JogoDasCadeiras) : Op → JogoDasCadeiras
  | .pegar id => (pegar_cadeira j id).2
  | .esvaziar => esvaziar_cadeiras j
  | .remover => remover_cadeira j

/-- Run a sequence of mutations. -/
def runOps (j : JogoDasCadeiras) : List Op → JogoDasCadeiras
  | [] => j
  | op :: ops => runOps (applyOp j op) ops

/-- The game protocol's constraint on a single call: `pegar_cadeira` is
called with a real player id (`≠ 0`, the vacancy sentinel) not already
seated — the ids claimed between clears are pairwise distinct, and a clear
removes all ids from the seats. -/
def opOk (j : JogoDasCadeiras) : Op → Prop
  | .pegar id => id ≠ 0 ∧ id ∉ j.cadeiras
  | .esvaziar => True
  | .remover => True

instance opOk.decidable (j : JogoDasCadeiras) (op : Op) : Decidable (opOk j op) :=
  match op with
  | .pegar id => inferInstanceAs (Decidable (id ≠ 0 ∧ id ∉ j.cadeiras))
  | .esvaziar => inferInstanceAs (Decidable True)
  | .remover => inferInstanceAs (Decidable True)

/-- A protocol-respecting trace: every `pegar` uses a fresh nonzero id. -/
def validTrace : JogoDasCadeiras → List Op → Prop
  | _, [] => True
  | j, op :: ops => opOk j op ∧ validTrace (applyOp j op) ops

instance validTrace.decidable :
    (j : JogoDasCadeiras) → (ops : List Op) → Decidable (validTrace j ops)
  | _, [] => .isTrue trivial
  | j, op :: ops =>
      have := validTrace.decidable (applyOp j op) ops
      inferInstanceAs (Decidable (opOk j op ∧ validTrace (applyOp j op) ops))

/-- Number of occupied seats. -/
def occupiedCount (j : JogoDasCadeiras) : Nat :=
  (j.cadeiras.filter (fun c => c != 0)).length

/-- The occupancy invariant: occupied seats never outnumber the seats, and
the occupant ids are pairwise distinct (no id sits in two seats). -/
def SeatInv (j : JogoDasCadeiras) : Prop :=
  occupiedCount j ≤ j.cadeiras.length ∧
    (j.cadeiras.filter (fun c => c != 0)).Nodup

/-- Members of the post-scan seat list come from the old list or are the
new id. -/
theorem pegarAux_mem (id x : Int) (l : List Int)
    (h : x ∈ (pegarAux id l).2) : x = id ∨ x ∈ l := by
  induction l with
  | nil => simp [pegarAux] at h
  | cons c cs ih =>
      by_cases hc : c = 0
      · simp [pegarAux, hc] at h
        rcases h with h | h
        · exact Or.inl h
        · exact Or.inr (List.mem_cons_of_mem _ h)
      · simp only [pegarAux, hc, if_false, List.mem_cons] at h
        rcases h with h | h
        · exact Or.inr (by simp [h])
        · rcases ih h with h' | h'
          · exact Or.inl h'
          · exact Or.inr (List.mem_cons_of_mem _ h')

/-- A fresh nonzero id keeps the occupant ids pairwise distinct through the
seat scan. -/
theorem pegarAux_nodup (id : Int) (l : List Int) (hid : id ≠ 0)
    (hfresh : id ∉ l) (h : (l.filter (fun c => c != 0)).Nodup) :
    ((pegarAux id l).2.filter (fun c => c != 0)).Nodup := by
  induction l with
  | nil => simp [pegarAux]
  | cons c cs ih =>
      have hidc : id ≠ c := fun hx => hfresh (by simp [hx])
      have hfresh' : id ∉ cs := fun hmem => hfresh (List.mem_cons_of_mem _ hmem)
      by_cases hc : c = 0
      · subst hc
        have hres : (pegarAux id (0 :: cs)).2 = id :: cs := by
          simp [pegarAux]
        rw [hres]
        rw [List.filter_cons_of_neg (by simp)] at h
        rw [List.filter_cons_of_pos (by simp [hid]), List.nodup_cons]
        exact ⟨fun hmem => hfresh' (List.mem_of_mem_filter hmem), h⟩
      · simp only [pegarAux, hc, if_false]
        rw [List.filter_cons_of_pos (by simp [hc]), List.nodup_cons] at h
        rw [List.filter_cons_of_pos (by simp [hc]), List.nodup_cons]
        refine ⟨?_, ih hfresh' h.2⟩
        intro hmem
        rcases pegarAux_mem id c cs (List.mem_of_mem_filter hmem) with h' | h'
        · exact hidc h'.symm
        · exact h.1 (List.mem_filter.mpr ⟨h', by simp [hc]⟩)

/-- One protocol-respecting mutation preserves the occupancy invariant. -/
theorem SeatInv_applyOp (j : JogoDasCadeiras) (op : Op)
    (hInv : SeatInv j) (hok : opOk j op) : SeatInv (applyOp j op) := by
  cases op with
  | pegar id =>
      obtain ⟨hid, hfresh⟩ := hok
      refine ⟨List.length_filter_le _ _, ?_⟩
      exact pegarAux_nodup id j.cadeiras hid hfresh hInv.2
  | esvaziar =>
      refine ⟨List.length_filter_le _ _, ?_⟩
      have hnil : ((esvaziar_cadeiras j).cadeiras.filter (fun c => c != 0)) = [] := by
        refine List.filter_eq_nil_iff.mpr ?_
        intro a ha
        simp [esvaziar_cadeiras] at ha
        simp [ha]
      simp [applyOp, hnil]
  | remover =>
      refine ⟨List.length_filter_le _ _, ?_⟩
      have hsub : (remover_cadeira j).cadeiras.Sublist j.cadeiras :=
        j.cadeiras.dropLast_sublist
      exact (hsub.filter _).nodup hInv.2

/-- The occupancy invariant holds after every protocol-respecting trace. -/
theorem SeatInv_runOps :
    ∀ (ops : List Op) (j : JogoDasCadeiras),
      SeatInv j → validTrace j ops → SeatInv (runOps j ops)
  | [], _, hInv, _ => hInv
  | op :: ops, j, hInv, hvalid =>
      SeatInv_runOps ops (applyOp j op)
        (SeatInv_applyOp j op hInv hvalid.1) hvalid.2

/-- The freshly built game state satisfies the invariant. -/
theorem SeatInv_mkJogo (n : Int) : SeatInv (mkJogo n) := by
  refine ⟨List.length_filter_le _ _, ?_⟩
  have hnil : ((mkJogo n).cadeiras.filter (fun c => c != 0)) = [] := by
    refine List.filter_eq_nil_iff.mpr ?_
    intro a ha
    have := List.eq_of_mem_replicate ha
    simp [this]
  simp [hnil]

/-- C2.  Starting from the all-empty seat list, after any sequence of
`pegar_cadeira` (with fresh nonzero ids between clears),
`esvaziar_cadeiras` and `remover_cadeira` calls, every seat holds at most
one occupant id (distinct nonzero occupants) and the occupied-seat count —
a `Nat`, hence never negative — is at most the seat count. -/
theorem gameState_invariant (n : Int) (ops : List Op)
    (h : validTrace (mkJogo n) ops) :
    occupiedCount (runOps (mkJogo n) ops) ≤
        (runOps (mkJogo n) ops).cadeiras.length ∧
      ((runOps (mkJogo n) ops).cadeiras.filter (fun c => c != 0)).Nodup :=
  SeatInv_runOps ops (mkJogo n) (SeatInv_mkJogo n) h

/-- Witness for `gameState_invariant`: a four-player game trace — three
claims, a clear, a seat removal, two more claims. -/
theorem gameState_invariant_witness :
    validTrace (mkJogo 4)
        [.pegar 1, .pegar 2, .pegar 3, .esvaziar, .remover, .pegar 2, .pegar 4] ∧
      occupiedCount (runOps (mkJogo 4)
          [.pegar 1, .pegar 2, .pegar 3, .esvaziar, .remover, .pegar 2, .pegar 4]) ≤
        (runOps (mkJogo 4)
          [.pegar 1, .pegar 2, .pegar 3, .esvaziar, .remover, .pegar 2, .pegar 4]).cadeiras.length :=
  ⟨by decide,
   (gameState_invariant 4
      [.pegar 1, .pegar 2, .pegar 3, .esvaziar, .remover, .pegar 2, .pegar 4]
      (by decide)).1⟩

/-! ### C3: the round step changes the state by exactly one elimination -/

/-- The per-round bookkeeping: the coordinator's `eliminar_jogador`
(main.cpp line 264) composed with the losing player's
`add_jogador_eliminado` (line 220).  The two writes touch disjoint fields,
so either order gives this state. -/
def round_elimination (j : JogoDasCadeiras) (loser : Int) : JogoDasCadeiras :=
  add_jogador_eliminado (eliminar_jogador j) loser

/-- C3.  Each round's elimination step appends exactly one id to the log and
decrements the player count by exactly one, so the invariant
`num_jogadores = init - length jogadores_eliminados` is preserved. -/
theorem round_elimination_correct (j : JogoDasCadeiras) (loser init : Int)
    (h : j.num_jogadores = init - j.jogadores_eliminados.length) :
    (round_elimination j loser).jogadores_eliminados =
      j.jogadores_eliminados ++ [loser] ∧
    (round_elimination j loser).jogadores_eliminados.length =
      j.jogadores_eliminados.length + 1 ∧
    (round_elimination j loser).num_jogadores = j.num_jogadores - 1 ∧
    (round_elimination j loser).num_jogadores =
      init - (round_elimination j loser).jogadores_eliminados.length := by
  refine ⟨rfl,
    by simp [round_elimination, add_jogador_eliminado, eliminar_jogador],
    rfl, ?_⟩
  simp [round_elimination, add_jogador_eliminado, eliminar_jogador, h]
  ring

/-- Witness for `round_elimination_correct`: the start-of-game state for
four players satisfies the invariant with `init = 4`, and eliminating
player `3` preserves it. -/
theorem round_elimination_correct_witness :
    (mkJogo 4).num_jogadores =
        4 - ((mkJogo 4).jogadores_eliminados.length : Int) ∧
      (round_elimination (mkJogo 4) 3).num_jogadores =
        4 - ((round_elimination (mkJogo 4) 3).jogadores_eliminados.length : Int) :=
  ⟨by decide, (round_elimination_correct (mkJogo 4) 3 4 (by decide)).2.2.2⟩

/-! ### C4: the N = 4 end-to-end round structure -/

/-- Recognizes a seat-claim operation. -/
def isPegar : Op → Bool
  | .pegar _ => true
  | _ => false

/-- An operation list containing only seat claims (what players do to the
state during one round's race). -/
def pegarOnly (ops : List Op) : Prop :=
  ∀ op ∈ ops, isPegar op = true

instance pegarOnly.decidable (ops : List Op) : Decidable (pegarOnly ops) :=
  List.decidableBAll _ ops

/-- Seat claims never change the player count, the number of seats, or the
elimination log. -/
theorem runOps_pegarOnly :
    ∀ (ops : List Op) (j : JogoDasCadeiras), pegarOnly ops →
      (runOps j ops).num_jogadores = j.num_jogadores ∧
      (runOps j ops).cadeiras.length = j.cadeiras.length ∧
      (runOps j ops).jogadores_eliminados = j.jogadores_eliminados
  | [], _, _ => ⟨rfl, rfl, rfl⟩
  | op :: ops, j, h => by
      have hop : isPegar op = true := h op (List.mem_cons_self op ops)
      obtain ⟨id, rfl⟩ : ∃ id, op = Op.pegar id := by
        cases op
        · exact ⟨_, rfl⟩
        · simp [isPegar] at hop
        · simp [isPegar] at hop
      have hrest : pegarOnly ops := fun o ho => h o (List.mem_cons_of_mem _ ho)
      have ih := runOps_pegarOnly ops (applyOp j (.pegar id)) hrest
      refine ⟨ih.1.trans rfl, ih.2.1.trans ?_, ih.2.2.trans rfl⟩
      exact pegarAux_length id j.cadeiras

/-- `iniciar_rodada` for a non-first round: the player count is untouched
and exactly one seat disappears. -/
theorem iniciar_rodada_shrinks (j : JogoDasCadeiras)
    (h : j.num_jogadores < NUM_JOGADORES) :
    (iniciar_rodada j).num_jogadores = j.num_jogadores ∧
    (iniciar_rodada j).cadeiras.length = j.cadeiras.length - 1 := by
  refine ⟨by simp [iniciar_rodada, h, remover_cadeira, esvaziar_cadeiras], ?_⟩
  simp [iniciar_rodada, h, remover_cadeira, esvaziar_cadeiras]

/-- One full coordinator loop iteration on the game state (main.cpp lines
247-283): `iniciar_rodada`, the players' seat claims, then the elimination
bookkeeping for the round's loser. -/
def coordinatorRound (j : JogoDasCadeiras) (claims : List Op) (loser : Int) :
    JogoDasCadeiras :=
  round_elimination (runOps (iniciar_rodada j) claims) loser

/-- One coordinator iteration takes one player off the count reached at
round start and keeps the round's seat count. -/
theorem coordinatorRound_step (j : JogoDasCadeiras) (claims : List Op)
    (loser : Int) (h : pegarOnly claims) :
    (coordinatorRound j claims loser).num_jogadores =
      (iniciar_rodada j).num_jogadores - 1 ∧
    (coordinatorRound j claims loser).cadeiras.length =
      (iniciar_rodada j).cadeiras.length := by
  have hrace := runOps_pegarOnly claims (iniciar_rodada j) h
  constructor
  · simp [coordinatorRound, round_elimination, add_jogador_eliminado,
      eliminar_jogador, hrace.1]
  · simp [coordinatorRound, round_elimination, add_jogador_eliminado,
      eliminar_jogador, hrace.2.1]

/-- C4.  For a game constructed with `N = 4`: round 1 starts with 3 seats
and 4 players; after each elimination the next `iniciar_rodada` gives
round 2 two seats with three players and round 3 one seat with two players
(seat count = players − 1 every round), the game does not end after rounds
1 and 2, and it ends exactly after round 3, when one player remains. -/
theorem game_rounds_N4 (c1 c2 c3 : List Op) (l1 l2 l3 : Int)
    (h1 : pegarOnly c1) (h2 : pegarOnly c2) (h3 : pegarOnly c3) :
    (iniciar_rodada (mkJogo 4)).num_jogadores = 4 ∧
    (iniciar_rodada (mkJogo 4)).cadeiras.length = 3 ∧
    (coordinatorRound (mkJogo 4) c1 l1).num_jogadores = 3 ∧
    (iniciar_rodada (coordinatorRound (mkJogo 4) c1 l1)).num_jogadores = 3 ∧
    (iniciar_rodada (coordinatorRound (mkJogo 4) c1 l1)).cadeiras.length = 2 ∧
    (coordinatorRound (coordinatorRound (mkJogo 4) c1 l1) c2 l2).num_jogadores
      = 2 ∧
    (iniciar_rodada
        (coordinatorRound (coordinatorRound (mkJogo 4) c1 l1) c2 l2)).num_jogadores = 2 ∧
    (iniciar_rodada
        (coordinatorRound (coordinatorRound (mkJogo 4) c1 l1) c2 l2)).cadeiras.length = 1 ∧
    (coordinatorRound
        (coordinatorRound (coordinatorRound (mkJogo 4) c1 l1) c2 l2) c3
        l3).num_jogadores = 1 := by
  have hs0num : (mkJogo 4).num_jogadores = 4 := rfl
  have hs0len : (mkJogo 4).cadeiras.length = 3 := rfl
  have hr1 : iniciar_rodada (mkJogo 4) = mkJogo 4 := by
    simp [iniciar_rodada, mkJogo, NUM_JOGADORES]
  have hstep1 := coordinatorRound_step (mkJogo 4) c1 l1 h1
  have he1num : (coordinatorRound (mkJogo 4) c1 l1).num_jogadores = 3 := by
    rw [hstep1.1, hr1, hs0num]; decide
  have he1len : (coordinatorRound (mkJogo 4) c1 l1).cadeiras.length = 3 := by
    rw [hstep1.2, hr1, hs0len]
  have hr2 := iniciar_rodada_shrinks (coordinatorRound (mkJogo 4) c1 l1)
    (by rw [he1num]; decide)
  have hr2num :
      (iniciar_rodada (coordinatorRound (mkJogo 4) c1 l1)).num_jogadores = 3 :=
    hr2.1.trans he1num
  have hr2len :
      (iniciar_rodada (coordinatorRound (mkJogo 4) c1 l1)).cadeiras.length = 2 := by
    rw [hr2.2, he1len]
  have hstep2 := coordinatorRound_step (coordinatorRound (mkJogo 4) c1 l1) c2 l2 h2
  have he2num :
      (coordinatorRound (coordinatorRound (mkJogo 4) c1 l1) c2 l2).num_jogadores = 2 := by
    rw [hstep2.1, hr2num]; decide
  have he2len :
      (coordinatorRound (coordinatorRound (mkJogo 4) c1 l1) c2 l2).cadeiras.length = 2 := by
    rw [hstep2.2, hr2len]
  have hr3 := iniciar_rodada_shrinks
    (coordinatorRound (coordinatorRound (mkJogo 4) c1 l1) c2 l2)
    (by rw [he2num]; decide)
  have hr3num :
      (iniciar_rodada
        (coordinatorRound (coordinatorRound (mkJogo 4) c1 l1) c2 l2)).num_jogadores = 2 :=
    hr3.1.trans he2num
  have hr3len :
      (iniciar_rodada
        (coordinatorRound (coordinatorRound (mkJogo 4) c1 l1) c2 l2)).cadeiras.length = 1 := by
    rw [hr3.2, he2len]
  have hstep3 := coordinatorRound_step
    (coordinatorRound (coordinatorRound (mkJogo 4) c1 l1) c2 l2) c3 l3 h3
  have he3num :
      (coordinatorRound
        (coordinatorRound (coordinatorRound (mkJogo 4) c1 l1) c2 l2) c3
        l3).num_jogadores = 1 := by
    rw [hstep3.1, hr3num]; decide
  exact ⟨by rw [hr1, hs0num], by rw [hr1, hs0len], he1num, hr2num, hr2len,
    he2num, hr3num, hr3len, he3num⟩

/-- Witness for `game_rounds_N4`: the canonical schedule where in each round
the players claim in id order and the highest surviving id loses. -/
theorem game_rounds_N4_witness :
    pegarOnly [.pegar 1, .pegar 2, .pegar 3] ∧
      (coordinatorRound
        (coordinatorRound
          (coordinatorRound (mkJogo 4) [.pegar 1, .pegar 2, .pegar 3] 4)
          [.pegar 1, .pegar 2] 3)
        [.pegar 1] 2).num_jogadores = 1 :=
  ⟨by decide,
   (game_rounds_N4 [.pegar 1, .pegar 2, .pegar 3] [.pegar 1, .pegar 2]
      [.pegar 1] 4 3 2 (by decide) (by decide) (by decide)).2.2.2.2.2.2.2.2⟩

/-! ### C5: the winner is the occupant of the sole seat of the final round -/

/-- C5.  In the final round the seat list is the single cleared seat `[0]`
and two players remain.  If finalist `a` (a real id, `a ≠ 0`) claims first,
the claim succeeds and fills the sole seat; the other finalist `b` then
fails to claim; after the elimination step one player remains, the seat
list still has exactly one seat, and `get_id_vencedor` returns `a`, the
last surviving claim of the final round. -/
theorem get_id_vencedor_correct (j : JogoDasCadeiras) (a b : Int)
    (hseats : j.cadeiras = [0]) (hnum : j.num_jogadores = 2) (ha : a ≠ 0) :
    (pegar_cadeira j a).1 = true ∧
    (pegar_cadeira (pegar_cadeira j a).2 b).1 = false ∧
    (round_elimination (pegar_cadeira j a).2 b).num_jogadores = 1 ∧
    (round_elimination (pegar_cadeira j a).2 b).cadeiras = [a] ∧
    get_id_vencedor (round_elimination (pegar_cadeira j a).2 b) = some a := by
  cases j
  simp only [JogoDasCadeiras.mk.injEq] at hseats hnum
  subst hseats hnum
  refine ⟨by simp [pegar_cadeira, pegarAux], ?_, by simp [round_elimination,
    add_jogador_eliminado, eliminar_jogador, pegar_cadeira], ?_, ?_⟩
  · simp [pegar_cadeira, pegarAux, ha]
  · simp [round_elimination, add_jogador_eliminado, eliminar_jogador,
      pegar_cadeira, pegarAux]
  · simp [round_elimination, add_jogador_eliminado, eliminar_jogador,
      pegar_cadeira, pegarAux, get_id_vencedor]

/-- Witness for `get_id_vencedor_correct`: finalists `1` and `4` on the
final round's single seat, `1` claiming first and winning. -/
theorem get_id_vencedor_correct_witness :
    ((⟨2, [0], [3, 2]⟩ : JogoDasCadeiras).cadeiras = [0]) ∧
      get_id_vencedor
        (round_elimination (pegar_cadeira ⟨2, [0], [3, 2]⟩ 1).2 4) = some 1 :=
  ⟨by decide,
   (get_id_vencedor_correct ⟨2, [0], [3, 2]⟩ 1 4 (by decide) (by decide)
      (by decide)).2.2.2.2⟩

/-! ### C6: the seat-pool semaphore under the game protocol -/

/-- An operation on the global `cadeira_sem` counting semaphore
(main.cpp line 13). -/
inductive SemOp where
  | acquire
  | release (n : Nat)
  | probe
deriving Repr, DecidableEq

/-- Effect of one operation on the available-permit count.  `acquire()`
(line 188) is blocking: in a linearized protocol trace it runs only when a
permit is available, so a zero count yields `none` ("would block here").
`probe` is one iteration of the coordinator's settle poll
(lines 259-262 and 269-272): `try_acquire()` immediately followed by
`release()` restores the count, and a failed `try_acquire()` leaves it
untouched, so the count is unchanged either way. -/
def semStep (k : Nat) : SemOp → Option Nat
  | .acquire => if k = 0 then none else some (k - 1)
  | .release n => some (k + n)
  | .probe => some k

/-- Run semaphore operations from `k` permits, recording the count after
each; `none` when a blocking `acquire` is not enabled at its turn. -/
def semRun (k : Nat) : List SemOp → Option (List Nat)
  | [] => some []
  | op :: ops =>
      match semStep k op with
      | none => none
      | some k' => (semRun k' ops).map (fun tr => k' :: tr)

/-- The per-round semaphore protocol for a round with `s` seats and `s + 1`
racing players, starting from the `0` permits the previous round ended
with: the round-start resync `release(num_jogadores_-1)` (line 96; for
round 1 the constructor argument `NUM_JOGADORES - 1 = 3` of line 13 plays
this role), one blocking `acquire` per seated player, the coordinator's
settle probe, the extra `release()` for the blocked loser (line 288), the
loser's pending `acquire`, and the second settle probe. -/
def roundSemOps (s : Nat) : List SemOp :=
  SemOp.release s :: (List.replicate s SemOp.acquire ++
    [SemOp.probe, SemOp.release 1, SemOp.acquire, SemOp.probe])

/-- Draining `k` permits with `k` blocking acquires records the descending
counts `k-1, …, 0` and continues from `0`. -/
theorem semRun_acquires (k : Nat) (rest : List SemOp) :
    semRun k (List.replicate k SemOp.acquire ++ rest) =
      (semRun 0 rest).map (fun tr => (List.range k).reverse ++ tr) := by
  induction k with
  | zero =>
      simp only [List.replicate, List.nil_append, List.range_zero,
        List.reverse_nil]
      cases semRun 0 rest <;> simp
  | succ k ih =>
      rw [List.replicate_succ, List.cons_append]
      simp only [semRun, semStep, Nat.succ_ne_zero, if_false,
        Nat.add_sub_cancel]
      rw [ih]
      cases semRun 0 rest <;> simp [List.range_succ]

/-- C6.  For every round capacity `s ≥ 1` (the code uses `s = 3, 2, 1`),
the round's protocol trace exists (no acquire runs while empty), starts at
exactly `s` permits right after the resync, never exceeds `s` (and, counts
being `Nat`s, never goes below `0`), and ends at `0` permits, the state the
next round's resync assumes. -/
theorem seatPool_protocol_bounds (s : Nat) (hs : 1 ≤ s) :
    ∃ tr, semRun 0 (roundSemOps s) = some tr ∧
      tr.head? = some s ∧
      (∀ x ∈ tr, x ≤ s) ∧
      tr.getLast? = some 0 := by
  have htail : semRun 0 [SemOp.probe, SemOp.release 1, SemOp.acquire,
      SemOp.probe] = some [0, 1, 0, 0] := rfl
  have hacq := semRun_acquires s
    [SemOp.probe, SemOp.release 1, SemOp.acquire, SemOp.probe]
  rw [htail] at hacq
  simp only [Option.map_some'] at hacq
  refine ⟨s :: ((List.range s).reverse ++ [0, 1, 0, 0]), ?_, rfl, ?_, ?_⟩
  · simp only [roundSemOps, semRun, semStep, Nat.zero_add]
    rw [hacq]
    simp
  · intro x hx
    simp only [List.mem_cons, List.mem_append, List.mem_reverse,
      List.mem_range] at hx
    rcases hx with rfl | hx | hx
    · exact le_refl x
    · exact Nat.le_of_lt hx
    · simp at hx
      omega
  · rw [← List.cons_append]
    rw [List.getLast?_append]
    rfl

/-- Witness for `seatPool_protocol_bounds` at the first round's capacity
`s = 3` (the constructor's `NUM_JOGADORES - 1`). -/
theorem seatPool_protocol_bounds_witness :
    1 ≤ 3 ∧ ∃ tr, semRun 0 (roundSemOps 3) = some tr ∧
      tr.head? = some 3 ∧ (∀ x ∈ tr, x ≤ 3) ∧ tr.getLast? = some 0 :=
  ⟨by decide, seatPool_protocol_bounds 3 (by decide)⟩

/-! ### C7: the final phase transition versus the game-over flag -/

/-- The two global flags written by the coordinator's end-of-game block:
`std::atomic<bool> jogo_ativo` (line 17) and `std::atomic<bool>
musica_parada` (line 16). -/
structure GlobalFlags where
  jogo_ativo : Bool
  musica_parada : Bool
deriving Repr, DecidableEq

/-- The coordinator's writes once `get_num_jogadores() == 1`. -/
inductive CoordEvent where
  | setJogoAtivoFalse
  | comecarMusica
deriving Repr, DecidableEq

/-- Effect of each write: line 277 clears the game-active flag; line 282
(`comecar_musica`, lines 110-115) clears `musica_parada` and broadcasts,
unblocking every participant waiting for the restart phase. -/
def applyCoordEvent (g : GlobalFlags) : CoordEvent → GlobalFlags
  | .setJogoAtivoFalse => { g with jogo_ativo := false }
  | .comecarMusica => { g with musica_parada := false }

/-- The order of the two writes in the source (lines 276-283): the
game-over flag first, the phase transition second. -/
def coordFinalEvents : List CoordEvent :=
  [.setJogoAtivoFalse, .comecarMusica]

/-- C7 counterexample.  The claim puts the Playing transition before the
game-over flag; in the code the flag write (line 277) precedes
`comecar_musica()` (line 282). -/
theorem coordFinal_transition_before_flag_false :
    (coordFinalEvents.indexOf CoordEvent.comecarMusica <
      coordFinalEvents.indexOf CoordEvent.setJogoAtivoFalse) = False :=
  eq_false (by decide)

/-- C7 amended.  In the coordinator's final iteration the game-over flag is
set strictly before the phase transition back to Playing; starting from the
end-of-round flags (game active, music stopped — the state in which the
surviving participant is blocked waiting for the restart), running the
block unblocks the waiter (`musica_parada = false`) with the game-over flag
already observable (`jogo_ativo = false`): at every intermediate state of
the block, whenever the music has been released the game-over flag is
already set, so the woken participant observes game-over and exits. -/
theorem coordFinal_flag_before_transition :
    coordFinalEvents.indexOf CoordEvent.setJogoAtivoFalse <
        coordFinalEvents.indexOf CoordEvent.comecarMusica ∧
      (List.foldl applyCoordEvent ⟨true, true⟩ coordFinalEvents).musica_parada
          = false ∧
      (List.foldl applyCoordEvent ⟨true, true⟩ coordFinalEvents).jogo_ativo
          = false ∧
      (List.scanl applyCoordEvent ⟨true, true⟩ coordFinalEvents).all
          (fun g => g.musica_parada || !g.jogo_ativo) = true := by
  decide

/-! ### C8: the locking discipline of the GameState accesses -/

/-- The call sites in `main.cpp` where one thread touches the shared
`JogoDasCadeiras` while other threads are running. -/
inductive GameStateAccess where
  | pegarCadeiraSite
  | addJogadorEliminadoSite
  | eliminarJogadorSite
  | iniciarRodadaSite
  | exibirEstadoSite
deriving Repr, DecidableEq

/-- Transcribed from the source: whether `music_mutex` is held at each
access.  `pegar_cadeira` is called between `music_mutex.lock()` and
`music_mutex.unlock()` (lines 190-192); `add_jogador_eliminado` is called
from the eliminated player's thread with no lock held (line 220), and
`JogoDasCadeiras` itself takes no lock (lines 167-169); the coordinator
calls `iniciar_rodada` (line 250), `eliminar_jogador` (line 264) and
`exibir_estado` (line 274) with no lock held. -/
def underMusicMutex : GameStateAccess → Bool
  | .pegarCadeiraSite => true
  | .addJogadorEliminadoSite => false
  | .eliminarJogadorSite => false
  | .iniciarRodadaSite => false
  | .exibirEstadoSite => false

/-- C8.  The lock table of the source: only the seat-claim call runs under
`music_mutex`; in particular `add_jogador_eliminado` — called from
whichever participant lost the round — is not synchronized, internally or
at its call site, contradicting the claimed single mutual-exclusion
discipline. -/
theorem gameState_lock_table :
    underMusicMutex .pegarCadeiraSite = true ∧
    underMusicMutex .addJogadorEliminadoSite = false ∧
    underMusicMutex .eliminarJogadorSite = false ∧
    underMusicMutex .iniciarRodadaSite = false ∧
    underMusicMutex .exibirEstadoSite = false := by
  decide

end MusicalChairs
